import Mathlib

/-!
# Verification of the unity-tinybvh plugin registry and dispatch layer

Shallow embedding of `src/Plugin/src/plugin.cpp`: the BVH handle registry
(`gBVHs : std::deque<BVHContainer*>`), its lifecycle operations
(`AddBVH`, `BuildBVH`, `DestroyBVH`, `IsBVHReady`, `GetBVH`), the
intersection dispatcher (`Intersect`) and the export accessors
(`GetCWBVHNodesSize`, `GetCWBVHTrisSize`, `GetCWBVHData`).

The tinybvh geometry engine (`tinybvh::BVH8`, `tinybvh::BVH8_CWBVH`,
`tinybvh::Ray`, `tinybvh::Intersection`) is an external library that is not
part of the plugin source; its build/convert/traverse capabilities are
modelled abstractly as opaque data carried by the structures, and its
traversal functions as opaque functions from rays to intersection records.
The registry logic itself is translated line by line from `plugin.cpp`.

Pointers are modelled as `Option Nat` (`none` = null).  The mutex only
serialises the operations and does not affect their sequential semantics,
so it has no counterpart in the embedding; each C++ entry point becomes a
pure function of the registry state.
-/

namespace TinyBVHPlugin

/-- A 3-component vector (`tinybvh::bvhvec3`).  The plugin layer performs no
arithmetic on the components, it only forwards them to the external engine,
so the float components are modelled by an abstract scalar (`Int`). -/
structure Vec3 where
  x : Int
  y : Int
  z : Int
deriving DecidableEq, Repr, Inhabited

/-- Modelled from the spec: the engine's intersection result
(`tinybvh::Intersection`) — "hit/no-hit, distance along ray, and geometric
hit attributes (barycentric coordinates, primitive index) — a value type
with a well-defined no-hit sentinel".  The library defining it is not in
the plugin source; the fields are carried opaquely (scalars as `Int`). -/
structure Intersection where
  t : Int
  u : Int
  v : Int
  prim : Nat
deriving DecidableEq, Repr, Inhabited

/-- Modelled from the spec: the value-initialised `tinybvh::Intersection()`
that `Intersect` returns for an invalid handle; the spec designates it as
the "no hit" sentinel result. -/
def Intersection.noHit : Intersection := { t := 0, u := 0, v := 0, prim := 0 }

/-- A ray (`tinybvh::Ray(origin, direction)`): logically immutable query
input.  The engine's traversal fills in `ray.hit`; that mutation is folded
into the opaque traversal functions below, which map a ray to the final hit
record. -/
structure Ray where
  O : Vec3
  D : Vec3
deriving DecidableEq, Repr, Inhabited

/-- Modelled from the spec: the external engine's primary wide BVH
(`tinybvh::BVH8`).  Its only capability used by the plugin after
construction is traversal (`bvh8->Intersect(ray)` followed by reading
`ray.hit`), modelled as an opaque function. -/
structure BVH8 where
  intersect : Ray → Intersection

/-- Modelled from the spec: the external engine's compressed structure
(`tinybvh::BVH8_CWBVH`).  The plugin reads its traversal capability, its
block count `usedBlocks`, its triangle count `triCount`, and its two export
buffer pointers `bvh8Data` / `bvh8Tris` (null = `none`).  The spec bounds
none of the counts; they are modelled as `Nat`, and the byte-size accessors
below reduce the products into the 32-bit `int` return type exactly as the
C++ does. -/
structure CWBVH where
  intersect : Ray → Intersection
  usedBlocks : Nat
  triCount : Nat
  bvh8Data : Option Nat
  bvh8Tris : Option Nat

/-- `struct BVHContainer { tinybvh::BVH8* bvh8 = nullptr;
tinybvh::BVH8_CWBVH* cwbvh = nullptr; };` — each owning pointer is either
null (`none`) or holds a structure. -/
structure BVHContainer where
  bvh8 : Option BVH8
  cwbvh : Option CWBVH

/-- The global registry `std::deque<BVHContainer*> gBVHs`: an ordered slot
array whose entries are either null (emptied slot) or a live container. -/
abbrev RegistryState : Type := List (Option BVHContainer)

/-- Reinterpret a natural number as a C 32-bit `int`: reduce modulo `2^32`
and read the result as two's-complement signed. -/
def toInt32 (n : Nat) : Int :=
  if n % 2 ^ 32 < 2 ^ 31 then ((n % 2 ^ 32 : Nat) : Int)
  else ((n % 2 ^ 32 : Nat) : Int) - 2 ^ 32

/-- `int AddBVH(BVHContainer* newBVH)`: scan `gBVHs` left to right for the
first null slot and reuse it, otherwise append; return the slot index.
The C++ `for` loop over the deque becomes structural recursion. -/
def AddBVH : RegistryState → BVHContainer → RegistryState × Nat
  | [], newBVH => ([some newBVH], 0)
  | none :: rest, newBVH => (some newBVH :: rest, 0)
  | some c :: rest, newBVH =>
    let r := AddBVH rest newBVH
    (some c :: r.1, r.2 + 1)

/-- `BVHContainer* GetBVH(int index)`: bounds-check the index and return
the slot's pointer (which may itself be null), else null.  Both "out of
range" and "emptied slot" collapse to `none`. -/
def GetBVH (s : RegistryState) (index : Int) : Option BVHContainer :=
  if 0 ≤ index ∧ index < (List.length s : Int) then
    List.getD s index.toNat none
  else
    none

/-- `int BuildBVH(tinybvh::bvhvec4* vertices, int triangleCount, bool
buildCWBVH)`: always construct the primary structure; if `buildCWBVH`,
additionally derive the compressed structure via `ConvertFrom`; publish the
container with `AddBVH`.  The engine's `Build` result and its `ConvertFrom`
capability are external and enter as parameters `prim` and `conv` (the
vertex buffer and triangle count are consumed only by the engine). -/
def BuildBVH (prim : BVH8) (conv : BVH8 → CWBVH) (buildCWBVH : Bool)
    (s : RegistryState) : RegistryState × Nat :=
  let container : BVHContainer :=
    { bvh8 := some prim
      cwbvh := if buildCWBVH then some (conv prim) else none }
  AddBVH s container

/-- `void DestroyBVH(int index)`: if the index is in range and the slot is
non-null, delete the owned structures and null the slot; otherwise do
nothing. -/
def DestroyBVH (s : RegistryState) (index : Int) : RegistryState :=
  if 0 ≤ index ∧ index < (List.length s : Int) then
    match List.getD s index.toNat none with
    | some _ => List.set s index.toNat none
    | none => s
  else
    s

/-- `bool IsBVHReady(int index)`: true iff `GetBVH` yields a non-null
container. -/
def IsBVHReady (s : RegistryState) (index : Int) : Bool :=
  (GetBVH s index).isSome

/-- `tinybvh::Intersection Intersect(int index, bvhvec3 origin, bvhvec3
direction, bool useCWBVH)`: invalid handle returns the default-constructed
sentinel; otherwise traverse the compressed structure when `useCWBVH` is
set and it exists, else traverse the primary structure.  The primary
dereference `bvh->bvh8->Intersect(ray)` carries no null check: a null
primary pointer would fault, modelled by the `none` result. -/
def Intersect (s : RegistryState) (index : Int) (origin direction : Vec3)
    (useCWBVH : Bool) : Option Intersection :=
  match GetBVH s index with
  | none => some Intersection.noHit
  | some bvh =>
    let ray : Ray := { O := origin, D := direction }
    match useCWBVH, bvh.cwbvh with
    | true, some c => some (c.intersect ray)
    | _, _ =>
      match bvh.bvh8 with
      | some p => some (p.intersect ray)
      | none => none

/-- `int GetCWBVHNodesSize(int index)`: `bvh->cwbvh->usedBlocks * 16` when
the handle is valid and a compressed structure exists, else 0.  The product
is computed in the 32-bit `int` return type. -/
def GetCWBVHNodesSize (s : RegistryState) (index : Int) : Int :=
  match GetBVH s index with
  | some bvh =>
    match bvh.cwbvh with
    | some c => toInt32 (c.usedBlocks * 16)
    | none => 0
  | none => 0

/-- `int GetCWBVHTrisSize(int index)`: `bvh->cwbvh->triCount * 3 * 16` when
the handle is valid and a compressed structure exists, else 0.  The product
is computed in the 32-bit `int` return type. -/
def GetCWBVHTrisSize (s : RegistryState) (index : Int) : Int :=
  match GetBVH s index with
  | some bvh =>
    match bvh.cwbvh with
    | some c => toInt32 (c.triCount * 3 * 16)
    | none => 0
  | none => 0

/-- `bool GetCWBVHData(int index, bvhvec4** bvhNodes, bvhvec4** bvhTris)`,
result view: `none` is the `false` return (invalid handle, no compressed
structure, or a null internal buffer pointer); `some (p, q)` is the `true`
return together with the two pointer values stored through the
out-parameters — the internal `bvh8Data` / `bvh8Tris` pointers themselves,
no copy. -/
def GetCWBVHData (s : RegistryState) (index : Int) : Option (Nat × Nat) :=
  match GetBVH s index with
  | none => none
  | some bvh =>
    match bvh.cwbvh with
    | none => none
    | some c =>
      match c.bvh8Data, c.bvh8Tris with
      | some p, some q => some (p, q)
      | _, _ => none

/-- `GetCWBVHData` with the caller's two pointer variables made explicit:
`nodesVar` and `trisVar` hold the values of `*bvhNodes` and `*bvhTris`
before the call, and the result carries the returned `bool` together with
the values of those variables after the call.  The C++ assigns through the
out-parameters only in the success branch. -/
def GetCWBVHDataWith (s : RegistryState) (index : Int)
    (nodesVar trisVar : Option Nat) : Bool × Option Nat × Option Nat :=
  match GetBVH s index with
  | none => (false, nodesVar, trisVar)
  | some bvh =>
    match bvh.cwbvh with
    | none => (false, nodesVar, trisVar)
    | some c =>
      match c.bvh8Data, c.bvh8Tris with
      | some p, some q => (true, some p, some q)
      | _, _ => (false, nodesVar, trisVar)

/-- One external call into the registry layer: a build (with the external
engine's outputs for that call) or a destroy. -/
inductive Op where
  | build (prim : BVH8) (conv : BVH8 → CWBVH) (buildCWBVH : Bool)
  | destroy (index : Int)

/-- Apply one call to the registry state (the handle returned by a build is
dropped here; reachability only needs the state). -/
def step (s : RegistryState) : Op → RegistryState
  | Op.build prim conv b => (BuildBVH prim conv b s).1
  | Op.destroy i => DestroyBVH s i

/-- The registry state reached from the initial empty registry by a
sequence of build/destroy calls. -/
def run (ops : List Op) : RegistryState :=
  List.foldl step [] ops

/-- The registry invariant of claim C10: every non-empty slot holds a
container whose primary-structure pointer is non-null. -/
def stateOK (s : RegistryState) : Bool :=
  List.all s fun slot =>
    match slot with
    | none => true
    | some c => c.bvh8.isSome

/-! ## Concrete sample data for witnesses -/

/-- A sample engine output for the primary structure: the traversal
capability is opaque, so any concrete function serves. -/
def sampleBVH8 : BVH8 := { intersect := fun _ => Intersection.noHit }

/-- A sample engine conversion capability producing a small compressed
structure with both export buffers populated. -/
def sampleConv : BVH8 → CWBVH := fun p =>
  { intersect := p.intersect, usedBlocks := 4, triCount := 2,
    bvh8Data := some 1, bvh8Tris := some 2 }

/-- A container holding only a primary structure, as built by
`BuildBVH(…, false)`. -/
def samplePrimOnly : BVHContainer := { bvh8 := some sampleBVH8, cwbvh := none }

/-- A container holding both structures, as built by `BuildBVH(…, true)`. -/
def sampleFull : BVHContainer :=
  { bvh8 := some sampleBVH8, cwbvh := some (sampleConv sampleBVH8) }

/-! ## Helper lemmas -/

/-- For a non-negative index the bounds check inside `GetBVH` is redundant:
`List.getD` already yields the null default out of range. -/
theorem getBVH_of_nonneg (s : RegistryState) (index : Int) (h : 0 ≤ index) :
    GetBVH s index = List.getD s index.toNat none := by
  unfold GetBVH
  by_cases hlt : index < (List.length s : Int)
  · rw [if_pos ⟨h, hlt⟩]
  · rw [if_neg (fun hc => hlt hc.2)]
    rw [List.getD_eq_default]
    omega

/-- A negative index fails the bounds check. -/
theorem getBVH_of_neg (s : RegistryState) (index : Int) (h : index < 0) :
    GetBVH s index = none := by
  unfold GetBVH
  rw [if_neg (fun hc => absurd hc.1 (by omega))]

/-- `AddBVH` returns an index no larger than the old length. -/
theorem addBVH_le_length (s : RegistryState) (c : BVHContainer) :
    (AddBVH s c).2 ≤ s.length := by
  induction s with
  | nil => simp [AddBVH]
  | cons hd tl ih =>
    cases hd with
    | none => simp [AddBVH]
    | some x => simpa [AddBVH] using ih

/-- Every slot strictly before the returned index was occupied. -/
theorem addBVH_before_occupied (s : RegistryState) (c : BVHContainer) :
    ∀ j, j < (AddBVH s c).2 → List.getD s j none ≠ none := by
  induction s with
  | nil => simp [AddBVH]
  | cons hd tl ih =>
    cases hd with
    | none => simp [AddBVH]
    | some x =>
      intro j hj
      cases j with
      | zero => simp
      | succ k =>
        simp only [AddBVH, List.getD_cons_succ]
        exact ih k (by simpa [AddBVH] using hj)

/-- If the returned index lies inside the old array, that slot was empty. -/
theorem addBVH_at_free (s : RegistryState) (c : BVHContainer) :
    (AddBVH s c).2 < s.length → List.getD s (AddBVH s c).2 none = none := by
  induction s with
  | nil => simp [AddBVH]
  | cons hd tl ih =>
    cases hd with
    | none => simp [AddBVH]
    | some x =>
      intro hlt
      simp only [AddBVH, List.getD_cons_succ]
      exact ih (by simpa [AddBVH] using hlt)

/-- The returned index holds the new container in the new state. -/
theorem addBVH_new_at (s : RegistryState) (c : BVHContainer) :
    List.getD (AddBVH s c).1 (AddBVH s c).2 none = some c := by
  induction s with
  | nil => simp [AddBVH]
  | cons hd tl ih =>
    cases hd with
    | none => simp [AddBVH]
    | some x => simpa [AddBVH] using ih

/-- Every slot other than the returned index is unchanged by `AddBVH`. -/
theorem addBVH_other (s : RegistryState) (c : BVHContainer) :
    ∀ j, j ≠ (AddBVH s c).2 →
      List.getD (AddBVH s c).1 j none = List.getD s j none := by
  induction s with
  | nil =>
    intro j hj
    simp only [AddBVH] at hj ⊢
    cases j with
    | zero => exact absurd rfl hj
    | succ k => simp
  | cons hd tl ih =>
    intro j hj
    cases hd with
    | none =>
      simp only [AddBVH] at hj ⊢
      cases j with
      | zero => exact absurd rfl hj
      | succ k => simp
    | some x =>
      simp only [AddBVH] at hj ⊢
      cases j with
      | zero => simp
      | succ k =>
        simp only [List.getD_cons_succ]
        exact ih k (by omega)

/-- The new length: unchanged on reuse, one more on append. -/
theorem addBVH_length (s : RegistryState) (c : BVHContainer) :
    (AddBVH s c).1.length =
      if (AddBVH s c).2 < s.length then s.length else s.length + 1 := by
  induction s with
  | nil => simp [AddBVH]
  | cons hd tl ih =>
    cases hd with
    | none => simp [AddBVH]
    | some x =>
      simp only [AddBVH, List.length_cons]
      rw [ih]
      by_cases hlt : (AddBVH tl c).2 < tl.length
      · rw [if_pos hlt, if_pos (by omega)]
      · rw [if_neg hlt, if_neg (by omega)]

/-- A value that fits in 31 bits passes through the `int` return type
unchanged. -/
theorem toInt32_of_lt (n : Nat) (h : n < 2 ^ 31) : toInt32 n = (n : Int) := by
  have h32 : n % 2 ^ 32 = n := Nat.mod_eq_of_lt (by omega)
  unfold toInt32
  rw [h32, if_pos h]

/-- A value that fits in 31 bits stays non-negative in the `int` return
type, and is zero exactly when the value is zero. -/
theorem toInt32_nonneg_of_lt (n : Nat) (h : n < 2 ^ 31) :
    0 ≤ toInt32 n ∧ (toInt32 n = 0 ↔ n = 0) := by
  rw [toInt32_of_lt n h]
  constructor
  · exact Int.ofNat_nonneg n
  · omega

/-! ## Claim theorems -/

/-- C1: for every invalid handle (negative, at or beyond the slot-array
length, or pointing at an emptied slot), every query behaves uniformly and
never faults: `IsBVHReady` returns `false`, both size queries return 0,
`GetCWBVHData` returns the failure indicator, and `Intersect` returns the
no-hit sentinel regardless of the ray. -/
theorem invalid_handle_uniform (s : RegistryState) (index : Int)
    (h : index < 0 ∨ (List.length s : Int) ≤ index ∨
      List.getD s index.toNat none = none) :
    IsBVHReady s index = false ∧
    GetCWBVHNodesSize s index = 0 ∧
    GetCWBVHTrisSize s index = 0 ∧
    GetCWBVHData s index = none ∧
    ∀ origin direction useCWBVH,
      Intersect s index origin direction useCWBVH = some Intersection.noHit := by
  have hnone : GetBVH s index = none := by
    rcases h with h | h | h
    · exact getBVH_of_neg s index h
    · rcases lt_or_le index 0 with h0 | h0
      · exact getBVH_of_neg s index h0
      · rw [getBVH_of_nonneg s index h0, List.getD_eq_default]
        omega
    · rcases lt_or_le index 0 with h0 | h0
      · exact getBVH_of_neg s index h0
      · rw [getBVH_of_nonneg s index h0, h]
  refine ⟨?_, ?_, ?_, ?_, ?_⟩
  · simp [IsBVHReady, hnone]
  · simp [GetCWBVHNodesSize, hnone]
  · simp [GetCWBVHTrisSize, hnone]
  · simp [GetCWBVHData, hnone]
  · intro origin direction useCWBVH
    simp [Intersect, hnone]

/-- Witness for C1 at the empty registry and the invalid handle `-1`. -/
theorem invalid_handle_uniform_witness :
    IsBVHReady ([] : RegistryState) (-1) = false ∧
    GetCWBVHNodesSize ([] : RegistryState) (-1) = 0 ∧
    GetCWBVHTrisSize ([] : RegistryState) (-1) = 0 ∧
    GetCWBVHData ([] : RegistryState) (-1) = none ∧
    Intersect ([] : RegistryState) (-1) ⟨1, 2, 3⟩ ⟨0, 0, -1⟩ true =
      some Intersection.noHit := by
  have h := invalid_handle_uniform [] (-1) (Or.inl (by decide))
  exact ⟨h.1, h.2.1, h.2.2.1, h.2.2.2.1, h.2.2.2.2 ⟨1, 2, 3⟩ ⟨0, 0, -1⟩ true⟩

/-- C2: the handle returned by `BuildBVH` was not live before the call
(so it is unique among currently-live handles, and a destroyed value can
only be re-issued after its instance was destroyed), it is live after the
call, and every other handle resolves exactly as before. -/
theorem build_handle_unique (prim : BVH8) (conv : BVH8 → CWBVH)
    (buildCWBVH : Bool) (s : RegistryState) :
    IsBVHReady s ((BuildBVH prim conv buildCWBVH s).2 : Int) = false ∧
    IsBVHReady (BuildBVH prim conv buildCWBVH s).1
      ((BuildBVH prim conv buildCWBVH s).2 : Int) = true ∧
    ∀ j : Int, j ≠ ((BuildBVH prim conv buildCWBVH s).2 : Int) →
      GetBVH (BuildBVH prim conv buildCWBVH s).1 j = GetBVH s j := by
  set c : BVHContainer :=
    { bvh8 := some prim
      cwbvh := if buildCWBVH then some (conv prim) else none } with hc
  have hbuild : BuildBVH prim conv buildCWBVH s = AddBVH s c := rfl
  rw [hbuild]
  refine ⟨?_, ?_, ?_⟩
  · rw [IsBVHReady, getBVH_of_nonneg _ _ (Int.ofNat_nonneg _)]
    rcases lt_or_le (AddBVH s c).2 s.length with hlt | hle
    · rw [Int.toNat_natCast, addBVH_at_free s c hlt]
      rfl
    · rw [Int.toNat_natCast, List.getD_eq_default _ _ hle]
      rfl
  · rw [IsBVHReady, getBVH_of_nonneg _ _ (Int.ofNat_nonneg _), Int.toNat_natCast,
      addBVH_new_at s c]
    rfl
  · intro j hj
    rcases lt_or_le j 0 with hneg | hpos
    · rw [getBVH_of_neg _ _ hneg, getBVH_of_neg _ _ hneg]
    · rw [getBVH_of_nonneg _ _ hpos, getBVH_of_nonneg _ _ hpos]
      exact addBVH_other s c j.toNat (by omega)

/-- Witness for C2: building into the one-slot registry whose slot 0 is
live pushes the new instance to handle 1, and handle 0 is untouched. -/
theorem build_handle_unique_witness :
    IsBVHReady [some samplePrimOnly]
      ((BuildBVH sampleBVH8 sampleConv false [some samplePrimOnly]).2 : Int)
        = false ∧
    GetBVH (BuildBVH sampleBVH8 sampleConv false [some samplePrimOnly]).1 0 =
      GetBVH [some samplePrimOnly] 0 := by
  have h := build_handle_unique sampleBVH8 sampleConv false [some samplePrimOnly]
  exact ⟨h.1, h.2.2 0 (by simp [BuildBVH, AddBVH])⟩

/-- C3: `BuildBVH` returns the smallest index that was empty before the
call (every smaller index was occupied; if the index is inside the old
array its slot was empty), the returned slot then holds the new instance,
and when no slot was empty the handle is the old length and a slot is
appended. -/
theorem build_first_free_slot (prim : BVH8) (conv : BVH8 → CWBVH)
    (buildCWBVH : Bool) (s : RegistryState) :
    (BuildBVH prim conv buildCWBVH s).2 ≤ s.length ∧
    (∀ j, j < (BuildBVH prim conv buildCWBVH s).2 →
      List.getD s j none ≠ none) ∧
    ((BuildBVH prim conv buildCWBVH s).2 < s.length →
      List.getD s (BuildBVH prim conv buildCWBVH s).2 none = none) ∧
    List.getD (BuildBVH prim conv buildCWBVH s).1
        (BuildBVH prim conv buildCWBVH s).2 none =
      some { bvh8 := some prim
             cwbvh := if buildCWBVH then some (conv prim) else none } ∧
    ((BuildBVH prim conv buildCWBVH s).2 = s.length →
      (BuildBVH prim conv buildCWBVH s).1.length = s.length + 1) := by
  set c : BVHContainer :=
    { bvh8 := some prim
      cwbvh := if buildCWBVH then some (conv prim) else none } with hc
  have hbuild : BuildBVH prim conv buildCWBVH s = AddBVH s c := rfl
  rw [hbuild]
  refine ⟨addBVH_le_length s c, addBVH_before_occupied s c, addBVH_at_free s c,
    addBVH_new_at s c, ?_⟩
  intro heq
  rw [addBVH_length s c, if_neg (by omega)]

/-- Witness for C3: a registry `[occupied, empty, occupied]` hands out
handle 1 and every smaller slot was occupied. -/
theorem build_first_free_slot_witness :
    (BuildBVH sampleBVH8 sampleConv false
      [some samplePrimOnly, none, some samplePrimOnly]).2 = 1 ∧
    List.getD [some samplePrimOnly, none, some samplePrimOnly] 0 none ≠
      none := by
  refine ⟨rfl, ?_⟩
  exact (build_first_free_slot sampleBVH8 sampleConv false
    [some samplePrimOnly, none, some samplePrimOnly]).2.1 0 (by decide)

/-- C4: on a valid handle, `Intersect` traverses the compressed structure
exactly when the flag is set and the structure exists; in every other case
it traverses the primary structure with no error raised (given the primary
structure is present, which C10 establishes for all reachable states); in
particular on an instance without a compressed structure the flag value
does not change the result. -/
theorem intersect_dispatch (s : RegistryState) (index : Int)
    (bvh : BVHContainer) (origin direction : Vec3)
    (hget : GetBVH s index = some bvh) :
    (∀ c, bvh.cwbvh = some c →
      Intersect s index origin direction true =
        some (c.intersect { O := origin, D := direction })) ∧
    (∀ (u : Bool) p, (u = false ∨ bvh.cwbvh = none) → bvh.bvh8 = some p →
      Intersect s index origin direction u =
        some (p.intersect { O := origin, D := direction })) ∧
    (bvh.cwbvh = none →
      Intersect s index origin direction true =
        Intersect s index origin direction false) := by
  refine ⟨?_, ?_, ?_⟩
  · intro c hc
    simp [Intersect, hget, hc]
  · intro u p hu hp
    rcases hu with hu | hu
    · subst hu
      simp [Intersect, hget, hp]
    · cases u <;> simp [Intersect, hget, hu, hp]
  · intro hc
    simp [Intersect, hget, hc]

/-- Witness for C4: on a handle built with `buildCWBVH = false`, the
optimized and non-optimized queries agree. -/
theorem intersect_dispatch_witness :
    Intersect [some samplePrimOnly] 0 ⟨0, 0, 1⟩ ⟨0, 0, -1⟩ true =
      Intersect [some samplePrimOnly] 0 ⟨0, 0, 1⟩ ⟨0, 0, -1⟩ false :=
  (intersect_dispatch [some samplePrimOnly] 0 samplePrimOnly
    ⟨0, 0, 1⟩ ⟨0, 0, -1⟩ rfl).2.2 rfl

/-- C5: destroying a currently valid handle empties exactly that slot
(after which `IsBVHReady` is false there), keeps the array length, and
leaves every other handle resolving exactly as before; destroying an
invalid handle leaves the state unchanged. -/
theorem destroy_empties_exactly_one_slot (s : RegistryState) (index : Int) :
    (GetBVH s index ≠ none →
      DestroyBVH s index = List.set s index.toNat none ∧
      IsBVHReady (DestroyBVH s index) index = false ∧
      (DestroyBVH s index).length = s.length ∧
      ∀ j : Int, j ≠ index →
        GetBVH (DestroyBVH s index) j = GetBVH s j) ∧
    (GetBVH s index = none → DestroyBVH s index = s) := by
  constructor
  · intro hvalid
    have hrange : 0 ≤ index ∧ index < (List.length s : Int) := by
      by_contra hc
      exact hvalid (by unfold GetBVH; rw [if_neg hc])
    have hslot : List.getD s index.toNat none ≠ none := by
      intro hn
      exact hvalid (by unfold GetBVH; rw [if_pos hrange]; exact hn)
    have hdes : DestroyBVH s index = List.set s index.toNat none := by
      unfold DestroyBVH
      rw [if_pos hrange]
      rcases hx : List.getD s index.toNat none with _ | c
      · exact absurd hx hslot
      · rfl
    refine ⟨hdes, ?_, ?_, ?_⟩
    · rw [IsBVHReady, hdes, getBVH_of_nonneg _ _ hrange.1,
        List.getD_eq_getElem?_getD, List.getElem?_set_self (by omega)]
      rfl
    · rw [hdes, List.length_set]
    · intro j hj
      rcases lt_or_le j 0 with hneg | hpos
      · rw [getBVH_of_neg _ _ hneg, getBVH_of_neg _ _ hneg]
      · rw [getBVH_of_nonneg _ _ hpos, getBVH_of_nonneg _ _ hpos, hdes,
          List.getD_eq_getElem?_getD, List.getD_eq_getElem?_getD,
          List.getElem?_set_ne (by omega)]
  · intro hnone
    unfold DestroyBVH
    by_cases hrange : 0 ≤ index ∧ index < (List.length s : Int)
    · rw [if_pos hrange]
      have : List.getD s index.toNat none = none := by
        rw [← getBVH_of_nonneg s index hrange.1]
        exact hnone
      rw [this]
    · rw [if_neg hrange]

/-- Witness for C5: destroying handle 0 of a two-slot registry empties
slot 0 and leaves handle 1 untouched; destroying out-of-range handle 7 of
the same registry changes nothing. -/
theorem destroy_empties_exactly_one_slot_witness :
    DestroyBVH [some samplePrimOnly, some sampleFull] 0 =
      [none, some sampleFull] ∧
    IsBVHReady (DestroyBVH [some samplePrimOnly, some sampleFull] 0) 0 =
      false ∧
    GetBVH (DestroyBVH [some samplePrimOnly, some sampleFull] 0) 1 =
      GetBVH [some samplePrimOnly, some sampleFull] 1 ∧
    DestroyBVH [some samplePrimOnly, some sampleFull] 7 =
      [some samplePrimOnly, some sampleFull] := by
  have h := destroy_empties_exactly_one_slot
    [some samplePrimOnly, some sampleFull] 0
  have h7 := destroy_empties_exactly_one_slot
    [some samplePrimOnly, some sampleFull] 7
  have hv : GetBVH [some samplePrimOnly, some sampleFull] 0 ≠ none := by
    rw [getBVH_of_nonneg _ _ (by norm_num)]
    simp
  refine ⟨(h.1 hv).1, (h.1 hv).2.1, (h.1 hv).2.2.2 1 (by norm_num), ?_⟩
  refine h7.2 ?_
  rw [GetBVH, if_neg (by norm_num)]

/-- An engine conversion output whose triangle count makes
`triCount * 3 * 16` overflow the 32-bit `int` return type (a mesh of
`2^26` ≈ 67M triangles occupies `2^26 * 48` bytes ≥ `2^31`). -/
def bigTriConv : BVH8 → CWBVH := fun p =>
  { intersect := p.intersect, usedBlocks := 100, triCount := 2 ^ 26,
    bvh8Data := some 1, bvh8Tris := some 2 }

/-- The registry reached by one optimized build whose conversion reports
`2^26` triangles. -/
def overflowTriState : RegistryState := run [Op.build sampleBVH8 bigTriConv true]

/-- An engine conversion output whose block count makes `usedBlocks * 16`
overflow the 32-bit `int` return type. -/
def bigBlockConv : BVH8 → CWBVH := fun p =>
  { intersect := p.intersect, usedBlocks := 2 ^ 27, triCount := 100,
    bvh8Data := some 1, bvh8Tris := some 2 }

/-- The registry reached by one optimized build whose conversion reports
`2^27` used blocks. -/
def overflowBlockState : RegistryState :=
  run [Op.build sampleBVH8 bigBlockConv true]

/-- Counterexample to C6 as stated: on a live optimized handle whose
triangle count is `2^26`, `GetCWBVHTrisSize` does not return
`triCount * 3 * 16 = 3221225472`; the product wraps in the 32-bit `int`
return type to `-1073741824`. -/
theorem cwbvh_sizes_formula_counterexample :
    IsBVHReady overflowTriState 0 = true ∧
    GetCWBVHTrisSize overflowTriState 0 = -1073741824 ∧
    GetCWBVHTrisSize overflowTriState 0 ≠ ((2 ^ 26 : Int) * 3 * 16) := by
  refine ⟨rfl, by decide, by decide⟩

/-- C6 amended: the sizes are 0 for an invalid handle or an instance with
no optimized structure; otherwise they are `usedBlocks * 16` and
`triCount * 3 * 16` reduced into the 32-bit `int` return type, which
equals the mathematical product whenever that product is below `2^31`. -/
theorem cwbvh_sizes_formula (s : RegistryState) (index : Int) :
    (GetBVH s index = none →
      GetCWBVHNodesSize s index = 0 ∧ GetCWBVHTrisSize s index = 0) ∧
    (∀ bvh, GetBVH s index = some bvh → bvh.cwbvh = none →
      GetCWBVHNodesSize s index = 0 ∧ GetCWBVHTrisSize s index = 0) ∧
    (∀ bvh c, GetBVH s index = some bvh → bvh.cwbvh = some c →
      GetCWBVHNodesSize s index = toInt32 (c.usedBlocks * 16) ∧
      GetCWBVHTrisSize s index = toInt32 (c.triCount * 3 * 16) ∧
      (c.usedBlocks * 16 < 2 ^ 31 →
        GetCWBVHNodesSize s index = (c.usedBlocks * 16 : Int)) ∧
      (c.triCount * 3 * 16 < 2 ^ 31 →
        GetCWBVHTrisSize s index = (c.triCount * 3 * 16 : Int))) := by
  refine ⟨?_, ?_, ?_⟩
  · intro hnone
    exact ⟨by simp [GetCWBVHNodesSize, hnone], by simp [GetCWBVHTrisSize, hnone]⟩
  · intro bvh hget hc
    exact ⟨by simp [GetCWBVHNodesSize, hget, hc],
      by simp [GetCWBVHTrisSize, hget, hc]⟩
  · intro bvh c hget hc
    refine ⟨by simp [GetCWBVHNodesSize, hget, hc],
      by simp [GetCWBVHTrisSize, hget, hc], ?_, ?_⟩
    · intro hfit
      rw [(by simp [GetCWBVHNodesSize, hget, hc] :
        GetCWBVHNodesSize s index = toInt32 (c.usedBlocks * 16)),
        toInt32_of_lt _ hfit]
      push_cast
      ring
    · intro hfit
      rw [(by simp [GetCWBVHTrisSize, hget, hc] :
        GetCWBVHTrisSize s index = toInt32 (c.triCount * 3 * 16)),
        toInt32_of_lt _ hfit]
      push_cast
      ring

/-- Witness for the amended C6 on the sample optimized container:
4 blocks give 64 node bytes, 2 triangles give 96 triangle bytes. -/
theorem cwbvh_sizes_formula_witness :
    GetCWBVHNodesSize [some sampleFull] 0 = 64 ∧
    GetCWBVHTrisSize [some sampleFull] 0 = 96 := by
  have h := (cwbvh_sizes_formula [some sampleFull] 0).2.2
    sampleFull (sampleConv sampleBVH8) rfl rfl
  exact ⟨by rw [h.2.2.1 (by decide)]; decide, by rw [h.2.2.2 (by decide)]; decide⟩

/-- Counterexample to C8 as stated: the claim asserts non-negativity for
arbitrarily large block counts with the product computed in the `int`
return type, but on a live optimized handle whose conversion reports
`2^27` used blocks `GetCWBVHNodesSize` returns `-2^31 < 0`. -/
theorem cwbvh_sizes_nonneg_counterexample :
    IsBVHReady overflowBlockState 0 = true ∧
    GetCWBVHNodesSize overflowBlockState 0 < 0 := by
  refine ⟨rfl, by decide⟩

/-- C8 amended: the sizes are exactly 0 whenever the handle is invalid or
the instance has no optimized structure; when an optimized structure is
present and the products `usedBlocks * 16` and `triCount * 3 * 16` fit
below `2^31`, the results are non-negative and are 0 only for a zero
count; for larger counts the product wraps in the 32-bit `int` return type
and can be negative or zero. -/
theorem cwbvh_sizes_nonneg (s : RegistryState) (index : Int) :
    ((GetBVH s index = none ∨
        ∀ bvh, GetBVH s index = some bvh → bvh.cwbvh = none) →
      GetCWBVHNodesSize s index = 0 ∧ GetCWBVHTrisSize s index = 0) ∧
    (∀ bvh c, GetBVH s index = some bvh → bvh.cwbvh = some c →
      (c.usedBlocks * 16 < 2 ^ 31 →
        0 ≤ GetCWBVHNodesSize s index ∧
        (GetCWBVHNodesSize s index = 0 ↔ c.usedBlocks = 0)) ∧
      (c.triCount * 3 * 16 < 2 ^ 31 →
        0 ≤ GetCWBVHTrisSize s index ∧
        (GetCWBVHTrisSize s index = 0 ↔ c.triCount = 0))) := by
  constructor
  · intro h
    rcases h with h | h
    · exact ⟨by simp [GetCWBVHNodesSize, h], by simp [GetCWBVHTrisSize, h]⟩
    · rcases hget : GetBVH s index with _ | bvh
      · exact ⟨by simp [GetCWBVHNodesSize, hget],
          by simp [GetCWBVHTrisSize, hget]⟩
      · have hc := h bvh hget
        exact ⟨by simp [GetCWBVHNodesSize, hget, hc],
          by simp [GetCWBVHTrisSize, hget, hc]⟩
  · intro bvh c hget hc
    constructor
    · intro hfit
      have heq : GetCWBVHNodesSize s index = toInt32 (c.usedBlocks * 16) := by
        simp [GetCWBVHNodesSize, hget, hc]
      have h0 := toInt32_nonneg_of_lt _ hfit
      rw [heq]
      exact ⟨h0.1, by rw [h0.2]; omega⟩
    · intro hfit
      have heq : GetCWBVHTrisSize s index = toInt32 (c.triCount * 3 * 16) := by
        simp [GetCWBVHTrisSize, hget, hc]
      have h0 := toInt32_nonneg_of_lt _ hfit
      rw [heq]
      exact ⟨h0.1, by rw [h0.2]; omega⟩

/-- Witness for the amended C8 on the sample optimized container. -/
theorem cwbvh_sizes_nonneg_witness :
    0 ≤ GetCWBVHNodesSize [some sampleFull] 0 ∧
    0 ≤ GetCWBVHTrisSize [some sampleFull] 0 := by
  have h := (cwbvh_sizes_nonneg [some sampleFull] 0).2
    sampleFull (sampleConv sampleBVH8) rfl rfl
  exact ⟨(h.1 (by decide)).1, (h.2 (by decide)).1⟩

/-- C7: `GetCWBVHData` fails exactly when the handle is invalid, the
instance has no optimized structure, or one of the optimized structure's
internal buffer pointers is null; on success it returns precisely the two
internally stored non-null pointers (no copy). -/
theorem getCWBVHData_failure_iff (s : RegistryState) (index : Int) :
    (GetCWBVHData s index = none ↔
      GetBVH s index = none ∨
      (∃ bvh, GetBVH s index = some bvh ∧ bvh.cwbvh = none) ∨
      (∃ bvh c, GetBVH s index = some bvh ∧ bvh.cwbvh = some c ∧
        (c.bvh8Data = none ∨ c.bvh8Tris = none))) ∧
    (∀ bvh c p q, GetBVH s index = some bvh → bvh.cwbvh = some c →
      c.bvh8Data = some p → c.bvh8Tris = some q →
      GetCWBVHData s index = some (p, q)) := by
  constructor
  · rcases hget : GetBVH s index with _ | bvh
    · simp [GetCWBVHData, hget]
    · rcases hc : bvh.cwbvh with _ | c
      · simp [GetCWBVHData, hget, hc]
      · rcases hd : c.bvh8Data with _ | p
        · simp [GetCWBVHData, hget, hc, hd]
        · rcases ht : c.bvh8Tris with _ | q
          · simp [GetCWBVHData, hget, hc, hd, ht]
          · simp [GetCWBVHData, hget, hc, hd, ht]
  · intro bvh c p q hget hc hd ht
    simp [GetCWBVHData, hget, hc, hd, ht]

/-- Witness for C7: a build without the optimized structure fails the data
query; a build with it succeeds and hands back the stored pointers. -/
theorem getCWBVHData_failure_iff_witness :
    GetCWBVHData (run [Op.build sampleBVH8 sampleConv false]) 0 = none ∧
    GetCWBVHData (run [Op.build sampleBVH8 sampleConv true]) 0 =
      some (1, 2) := by
  constructor
  · exact (getCWBVHData_failure_iff
      (run [Op.build sampleBVH8 sampleConv false]) 0).1.mpr
      (Or.inr (Or.inl ⟨samplePrimOnly, rfl, rfl⟩))
  · exact (getCWBVHData_failure_iff
      (run [Op.build sampleBVH8 sampleConv true]) 0).2
      sampleFull (sampleConv sampleBVH8) 1 2 rfl rfl rfl rfl

/-- C9: when the call fails, the caller's two out-parameter variables keep
exactly their prior values; they are assigned (with the internal pointers)
only on the success path. -/
theorem getCWBVHData_no_write_on_failure (s : RegistryState) (index : Int)
    (nodesVar trisVar : Option Nat) :
    (GetCWBVHData s index = none →
      GetCWBVHDataWith s index nodesVar trisVar =
        (false, nodesVar, trisVar)) ∧
    (∀ p q, GetCWBVHData s index = some (p, q) →
      GetCWBVHDataWith s index nodesVar trisVar = (true, some p, some q)) := by
  rcases hget : GetBVH s index with _ | bvh
  · constructor
    · intro _
      simp [GetCWBVHDataWith, hget]
    · intro p q hpq
      simp [GetCWBVHData, hget] at hpq
  · rcases hc : bvh.cwbvh with _ | c
    · constructor
      · intro _
        simp [GetCWBVHDataWith, hget, hc]
      · intro p q hpq
        simp [GetCWBVHData, hget, hc] at hpq
    · rcases hd : c.bvh8Data with _ | p
      · constructor
        · intro _
          simp [GetCWBVHDataWith, hget, hc, hd]
        · intro p q hpq
          simp [GetCWBVHData, hget, hc, hd] at hpq
      · rcases ht : c.bvh8Tris with _ | q
        · constructor
          · intro _
            simp [GetCWBVHDataWith, hget, hc, hd, ht]
          · intro p q hpq
            simp [GetCWBVHData, hget, hc, hd, ht] at hpq
        · constructor
          · intro hfail
            simp [GetCWBVHData, hget, hc, hd, ht] at hfail
          · intro p' q' hpq
            simp [GetCWBVHData, hget, hc, hd, ht] at hpq
            simp [GetCWBVHDataWith, hget, hc, hd, ht, hpq.1, hpq.2]

/-- Witness for C9: on the no-optimized-structure handle the caller's
variables `some 7` / `some 9` survive the failing call untouched. -/
theorem getCWBVHData_no_write_on_failure_witness :
    GetCWBVHDataWith [some samplePrimOnly] 0 (some 7) (some 9) =
      (false, some 7, some 9) :=
  (getCWBVHData_no_write_on_failure [some samplePrimOnly] 0
    (some 7) (some 9)).1 rfl

/-- `AddBVH` preserves the invariant when the published container has a
primary structure. -/
theorem stateOK_addBVH (s : RegistryState) (c : BVHContainer)
    (hs : stateOK s = true) (hc : c.bvh8.isSome = true) :
    stateOK (AddBVH s c).1 = true := by
  induction s with
  | nil => simpa [AddBVH, stateOK] using hc
  | cons hd tl ih =>
    cases hd with
    | none =>
      simp only [AddBVH, stateOK, List.all_cons, Bool.and_eq_true] at hs ⊢
      exact ⟨hc, hs.2⟩
    | some x =>
      simp only [AddBVH, stateOK, List.all_cons, Bool.and_eq_true] at hs ⊢
      exact ⟨hs.1, ih hs.2⟩

/-- Emptying any slot preserves the invariant. -/
theorem stateOK_set_none (s : RegistryState) (i : Nat)
    (hs : stateOK s = true) : stateOK (List.set s i none) = true := by
  rw [stateOK, List.all_eq_true] at hs ⊢
  intro slot hmem
  rcases List.mem_or_eq_of_mem_set hmem with hmem' | rfl
  · exact hs slot hmem'
  · rfl

/-- A successful lookup yields a container stored in some slot. -/
theorem getBVH_mem (s : RegistryState) (index : Int) (bvh : BVHContainer)
    (hget : GetBVH s index = some bvh) : some bvh ∈ s := by
  rcases lt_or_le index 0 with hneg | hpos
  · rw [getBVH_of_neg s index hneg] at hget
    exact absurd hget (by simp)
  · rw [getBVH_of_nonneg s index hpos, List.getD_eq_getElem?_getD] at hget
    rcases hx : s[index.toNat]? with _ | slot
    · rw [hx] at hget
      exact absurd hget (by simp)
    · rw [hx] at hget
      simp only [Option.getD_some] at hget
      subst hget
      exact List.getElem?_mem hx

/-- C10: the invariant "every non-empty slot holds an instance with a
non-null primary structure" is preserved by `BuildBVH` and `DestroyBVH`
(it holds in the empty registry), and under it `Intersect` never reaches a
null dereference in its unchecked primary-structure fallback. -/
theorem intersect_never_null_deref (s : RegistryState)
    (hs : stateOK s = true) :
    (∀ prim conv buildCWBVH,
      stateOK (BuildBVH prim conv buildCWBVH s).1 = true) ∧
    (∀ index, stateOK (DestroyBVH s index) = true) ∧
    (∀ index origin direction useCWBVH,
      Intersect s index origin direction useCWBVH ≠ none) := by
  refine ⟨?_, ?_, ?_⟩
  · intro prim conv buildCWBVH
    exact stateOK_addBVH s _ hs rfl
  · intro index
    unfold DestroyBVH
    by_cases hrange : 0 ≤ index ∧ index < (List.length s : Int)
    · rw [if_pos hrange]
      rcases hx : List.getD s index.toNat none with _ | c
      · exact hs
      · exact stateOK_set_none s index.toNat hs
    · rw [if_neg hrange]
      exact hs
  · intro index origin direction useCWBVH
    rcases hget : GetBVH s index with _ | bvh
    · simp [Intersect, hget]
    · have hmem := getBVH_mem s index bvh hget
      have hprim : bvh.bvh8.isSome = true := by
        rw [stateOK, List.all_eq_true] at hs
        exact hs (some bvh) hmem
      rcases hp : bvh.bvh8 with _ | p
      · rw [hp] at hprim
        exact absurd hprim (by simp)
      · cases useCWBVH with
        | false =>
          rcases hc : bvh.cwbvh with _ | c <;> simp [Intersect, hget, hp, hc]
        | true =>
          rcases hc : bvh.cwbvh with _ | c <;> simp [Intersect, hget, hp, hc]

/-- Witness for C10 at a concrete invariant-satisfying registry: the
queries on both slots produce results, and build/destroy keep the
invariant. -/
theorem intersect_never_null_deref_witness :
    stateOK (BuildBVH sampleBVH8 sampleConv true
      [some samplePrimOnly, none, some sampleFull]).1 = true ∧
    stateOK (DestroyBVH [some samplePrimOnly, none, some sampleFull] 0) =
      true ∧
    Intersect [some samplePrimOnly, none, some sampleFull] 2
      ⟨0, 0, 1⟩ ⟨0, 0, -1⟩ true ≠ none := by
  have h := intersect_never_null_deref
    [some samplePrimOnly, none, some sampleFull] (by decide)
  exact ⟨h.1 sampleBVH8 sampleConv true, h.2.1 0,
    h.2.2 2 ⟨0, 0, 1⟩ ⟨0, 0, -1⟩ true⟩

end TinyBVHPlugin
